import Mathlib

/-!
Shallow embedding of `src/ui/desktop/src/components/context_management/ContextManager.tsx`.

The orchestrator is modelled as a pure function producing a trace of effect
events (state-setter calls, the backend invocation, `setMessages` /
`setAncestorMessages` calls, and scheduled `append` timers).  The two external
collaborators — the backend summarization endpoint `manageContextFromBackend`
and the conversion utility `convertApiMessageToFrontendMessage` — live outside
this file's source and are passed in as parameters; a JavaScript exception is
modelled as an `Except` error carrying either an `Error` object's message or
the marker that a non-`Error` value was thrown.  `Date.now()` is passed in as
a natural-number parameter `now` (milliseconds).
-/

/-- One typed content block of a message.  Only the `type` discriminant is
inspected by this module (`hasCompactionMarker`, and the error marker it
synthesizes carries a `msg` payload); other block kinds' payloads are
abstracted into the `msg` field. -/
structure ContentBlock where
  type : String
  msg : String
deriving Repr, DecidableEq

/-- The frontend `Message` shape consumed by the orchestrator: identifier,
role, creation timestamp (seconds), the ordered content blocks, and the two
orthogonal flags `display` (render in UI) and `sendToLLM` (replay to model). -/
structure Message where
  id : String
  role : String
  created : Nat
  content : List ContentBlock
  display : Bool
  sendToLLM : Bool
deriving Repr, DecidableEq

/-- A raw API message as returned by the backend, before conversion to the
frontend `Message` shape (it has no display-control flags yet). -/
structure ApiMessage where
  id : String
  role : String
  created : Nat
  content : List ContentBlock
deriving Repr, DecidableEq

/-- A value thrown by JavaScript code: either an `Error` instance carrying its
`message` string, or any non-`Error` value (whose identity the catch block
never inspects). -/
inductive JsError where
  | jsError (message : String)
  | nonError
deriving Repr, DecidableEq

/-- The catch block's display string:
`err instanceof Error ? err.message : 'Unknown error during compaction'`. -/
def errToDisplay : JsError → String
  | .jsError message => message
  | .nonError => "Unknown error during compaction"

/-- What the timer callback does when it fires: it invokes the `append`
parameter of `performCompaction` on the continuation message.  `submit`
models a real caller-supplied append callback receiving the message;
`noop` models the substituted `() => {}` of `handleManualCompaction`,
which receives nothing (the computed message is recorded here only to state
that it was computed and then dropped). -/
inductive AppendAction where
  | submit (m : Message)
  | noop (m : Message)
deriving Repr, DecidableEq

/-- Observable effect events emitted by the orchestrator, in program order. -/
inductive Event where
  | setIsCompacting (b : Bool)
  | setCompactionError (e : Option String)
  | callBackend (messages : List Message) (manageAction : String)
  | setAncestorMessages (messages : List Message)
  | setMessages (messages : List Message)
  | schedule (delayMs : Nat) (action : AppendAction)
  | clearAlerts
  | consoleError (e : JsError)
deriving Repr, DecidableEq

/-- The flag override applied at each index of the summarization response:
index 0 is the compaction marker `(display := true, sendToLLM := false)`,
index 1 the summary `(false, true)`, every other index the continuation
branch `(false, true)` — mirroring the `if/else if/else` of the `.map`
callback at lines 57–72. -/
def convertAtIndex (convert : ApiMessage → Bool → Bool → Except JsError Message)
    (index : Nat) (apiMessage : ApiMessage) : Except JsError Message :=
  if index = 0 then convert apiMessage true false
  else if index = 1 then convert apiMessage false true
  else convert apiMessage false true

/-- The indexed `.map` over the response messages, with a conversion throw
propagating out (to the surrounding catch). -/
def convertFromIndex (convert : ApiMessage → Bool → Bool → Except JsError Message)
    (i : Nat) : List ApiMessage → Except JsError (List Message)
  | [] => Except.ok []
  | a :: rest =>
    match convertAtIndex convert i a with
    | .error e => .error e
    | .ok m =>
      match convertFromIndex convert (i + 1) rest with
      | .error e => .error e
      | .ok ms => .ok (m :: ms)

/-- `summaryResponse.messages.map((apiMessage, index) => ...)` of lines 57–72. -/
def convertAll (convert : ApiMessage → Bool → Bool → Except JsError Message)
    (apiMessages : List ApiMessage) : Except JsError (List Message) :=
  convertFromIndex convert 0 apiMessages

/-- The ancestor snapshot of lines 76–80: each pre-compaction message with
`display` forced to `true` and `sendToLLM` forced to `false`. -/
def ancestorSnapshot (messages : List Message) : List Message :=
  messages.map fun msg => { msg with display := true, sendToLLM := false }

/-- The synthesized error marker of lines 102–114; `now` is `Date.now()` in
milliseconds, so `created = now / 1000` is `Math.floor(Date.now() / 1000)`. -/
def errorMarker (now : Nat) : Message :=
  { id := "compaction-error-" ++ toString now
    role := "assistant"
    created := now / 1000
    content := [{ type := "summarizationRequested"
                  msg := "Compaction failed. Please try again or start a new session." }]
    display := true
    sendToLLM := false }

/-- The catch block (lines 97–118): log, store the display string in
`compactionError`, hand the original messages plus the error marker to
`setMessages`, clear `isCompacting`. -/
def failureTrace (e : JsError) (messages : List Message) (now : Nat) : List Event :=
  [Event.consoleError e,
   Event.setCompactionError (some (errToDisplay e)),
   Event.setMessages (messages ++ [errorMarker now]),
   Event.setIsCompacting false]

/-- The success path after conversion (lines 74–96): optionally snapshot the
ancestors, replace the message list with the converted messages, schedule the
continuation (index 2) for `append` after 100 ms when it exists, clear
`isCompacting`. -/
def successTrace (converted : List Message) (messages : List Message)
    (append : Message → AppendAction) (hasSetAncestorMessages : Bool) : List Event :=
  (if hasSetAncestorMessages then [Event.setAncestorMessages (ancestorSnapshot messages)]
   else [])
  ++ [Event.setMessages converted]
  ++ (match converted[2]? with
      | some c => [Event.schedule 100 (append c)]
      | none => [])
  ++ [Event.setIsCompacting false]

/-- `performCompaction` (lines 38–121) as a trace: set `isCompacting`, clear
`compactionError`, call the backend with action `"summarize"`, then either the
success path or — on a backend rejection or a conversion throw — the catch
block.  `backend` and `convert` are the external collaborators; `append` is
the caller's append capability; `hasSetAncestorMessages` records whether the
optional `setAncestorMessages` callback was supplied. -/
def performCompaction
    (backend : List Message → String → Except JsError (List ApiMessage))
    (convert : ApiMessage → Bool → Bool → Except JsError Message)
    (now : Nat) (messages : List Message) (append : Message → AppendAction)
    (_isManual : Bool) (hasSetAncestorMessages : Bool) : List Event :=
  [Event.setIsCompacting true, Event.setCompactionError none,
   Event.callBackend messages "summarize"]
  ++ match backend messages "summarize" with
     | .error e => failureTrace e messages now
     | .ok apiMessages =>
       match convertAll convert apiMessages with
       | .error e => failureTrace e messages now
       | .ok converted => successTrace converted messages append hasSetAncestorMessages

/-- `handleAutoCompaction` (lines 123–133): delegate with `isManual = false`. -/
def handleAutoCompaction
    (backend : List Message → String → Except JsError (List ApiMessage))
    (convert : ApiMessage → Bool → Bool → Except JsError Message)
    (now : Nat) (messages : List Message) (append : Message → AppendAction)
    (hasSetAncestorMessages : Bool) : List Event :=
  performCompaction backend convert now messages append false hasSetAncestorMessages

/-- A no-op append capability: the substituted `() => {}` of line 151. -/
def noopAppend : Message → AppendAction := fun m => AppendAction.noop m

/-- `handleManualCompaction` (lines 135–157): call `clearAlerts` first when
supplied, then delegate with `isManual = true` and `append || (() => {})`. -/
def handleManualCompaction
    (backend : List Message → String → Except JsError (List ApiMessage))
    (convert : ApiMessage → Bool → Bool → Except JsError Message)
    (now : Nat) (messages : List Message)
    (append : Option (Message → AppendAction)) (hasClearAlerts : Bool)
    (hasSetAncestorMessages : Bool) : List Event :=
  (if hasClearAlerts then [Event.clearAlerts] else [])
  ++ performCompaction backend convert now messages (append.getD noopAppend) true
       hasSetAncestorMessages

/-- `hasCompactionMarker` (lines 159–161): true iff some content block has
type `summarizationRequested`. -/
def hasCompactionMarker (message : Message) : Bool :=
  message.content.any fun content => content.type == "summarizationRequested"

/-- The orchestrator's two pieces of provider state. -/
structure OrchState where
  isCompacting : Bool
  compactionError : Option String
deriving Repr, DecidableEq

/-- How one event updates the provider state (only the two setters do). -/
def applyEvent (s : OrchState) : Event → OrchState
  | .setIsCompacting b => { s with isCompacting := b }
  | .setCompactionError e => { s with compactionError := e }
  | _ => s

/-- Run a trace from a starting state. -/
def runTrace (s : OrchState) (tr : List Event) : OrchState :=
  tr.foldl applyEvent s

/-- The arguments handed to `setMessages`, in call order. -/
def setMessagesArgs (tr : List Event) : List (List Message) :=
  tr.filterMap fun e =>
    match e with
    | .setMessages ms => some ms
    | _ => none

/-- The arguments handed to `setAncestorMessages`, in call order. -/
def setAncestorArgs (tr : List Event) : List (List Message) :=
  tr.filterMap fun e =>
    match e with
    | .setAncestorMessages ms => some ms
    | _ => none

/-- The scheduled append timers (delay in ms, action), in scheduling order. -/
def scheduledAppends (tr : List Event) : List (Nat × AppendAction) :=
  tr.filterMap fun e =>
    match e with
    | .schedule d a => some (d, a)
    | _ => none

/-- The interface contract of `convertApiMessageToFrontendMessage` at its
boundary: whenever conversion succeeds, the returned message carries exactly
the two explicitly passed flags. -/
def FlagCorrect (convert : ApiMessage → Bool → Bool → Except JsError Message) : Prop :=
  ∀ a d s m, convert a d s = Except.ok m → m.display = d ∧ m.sendToLLM = s

/-! ### Basic lemmas about the conversion map -/

theorem convertFromIndex_length
    (convert : ApiMessage → Bool → Bool → Except JsError Message) :
    ∀ (l : List ApiMessage) (i : Nat) (ms : List Message),
      convertFromIndex convert i l = .ok ms → ms.length = l.length := by
  intro l
  induction l with
  | nil =>
    intro i ms h
    simp only [convertFromIndex] at h
    cases h
    rfl
  | cons a rest ih =>
    intro i ms h
    simp only [convertFromIndex] at h
    cases h1 : convertAtIndex convert i a with
    | error e => rw [h1] at h; cases h
    | ok m =>
      rw [h1] at h
      cases h2 : convertFromIndex convert (i + 1) rest with
      | error e => rw [h2] at h; cases h
      | ok ms' =>
        rw [h2] at h
        cases h
        simp [ih (i + 1) ms' h2]

theorem convertFromIndex_flags
    (convert : ApiMessage → Bool → Bool → Except JsError Message)
    (hf : FlagCorrect convert) :
    ∀ (l : List ApiMessage) (i : Nat) (ms : List Message),
      convertFromIndex convert i l = .ok ms →
      ∀ j m, ms[j]? = some m →
        if i + j = 0 then m.display = true ∧ m.sendToLLM = false
        else m.display = false ∧ m.sendToLLM = true := by
  intro l
  induction l with
  | nil =>
    intro i ms h j m hj
    simp only [convertFromIndex] at h
    cases h
    simp at hj
  | cons a rest ih =>
    intro i ms h j m hj
    simp only [convertFromIndex] at h
    cases h1 : convertAtIndex convert i a with
    | error e => rw [h1] at h; cases h
    | ok m0 =>
      rw [h1] at h
      cases h2 : convertFromIndex convert (i + 1) rest with
      | error e => rw [h2] at h; cases h
      | ok ms' =>
        rw [h2] at h
        cases h
        cases j with
        | zero =>
          simp only [List.getElem?_cons_zero, Option.some.injEq] at hj
          subst hj
          unfold convertAtIndex at h1
          by_cases hi0 : i = 0
          · subst hi0
            simp only [if_pos rfl] at h1
            simpa using hf a true false m0 h1
          · rw [if_neg hi0] at h1
            have hflags : m0.display = false ∧ m0.sendToLLM = true := by
              by_cases hi1 : i = 1
              · rw [if_pos hi1] at h1; exact hf a false true m0 h1
              · rw [if_neg hi1] at h1; exact hf a false true m0 h1
            simpa [hi0] using hflags
        | succ j' =>
          simp only [List.getElem?_cons_succ] at hj
          have hrest := ih (i + 1) ms' h2 j' m hj
          have hne : i + 1 + j' ≠ 0 := by omega
          rw [if_neg hne] at hrest
          have hne2 : i + (j' + 1) ≠ 0 := by omega
          rw [if_neg hne2]
          exact hrest

/-! ### Trace decomposition lemmas -/

/-- The environment condition under which `performCompaction` takes the catch
path: the backend rejects, or it succeeds and some conversion throws. -/
def FailsWith (backend : List Message → String → Except JsError (List ApiMessage))
    (convert : ApiMessage → Bool → Bool → Except JsError Message)
    (messages : List Message) (e : JsError) : Prop :=
  backend messages "summarize" = .error e ∨
  ∃ apiMessages, backend messages "summarize" = .ok apiMessages ∧
    convertAll convert apiMessages = .error e

theorem performCompaction_ok_trace
    (backend : List Message → String → Except JsError (List ApiMessage))
    (convert : ApiMessage → Bool → Bool → Except JsError Message)
    (now : Nat) (messages : List Message) (append : Message → AppendAction)
    (isManual hasAnc : Bool)
    (apiMessages : List ApiMessage) (converted : List Message)
    (hb : backend messages "summarize" = .ok apiMessages)
    (hc : convertAll convert apiMessages = .ok converted) :
    performCompaction backend convert now messages append isManual hasAnc =
      [Event.setIsCompacting true, Event.setCompactionError none,
       Event.callBackend messages "summarize"]
      ++ successTrace converted messages append hasAnc := by
  unfold performCompaction
  simp only [hb, hc]

theorem performCompaction_error_trace
    (backend : List Message → String → Except JsError (List ApiMessage))
    (convert : ApiMessage → Bool → Bool → Except JsError Message)
    (now : Nat) (messages : List Message) (append : Message → AppendAction)
    (isManual hasAnc : Bool) (e : JsError)
    (hfail : FailsWith backend convert messages e) :
    performCompaction backend convert now messages append isManual hasAnc =
      [Event.setIsCompacting true, Event.setCompactionError none,
       Event.callBackend messages "summarize"]
      ++ failureTrace e messages now := by
  unfold performCompaction
  rcases hfail with hb | ⟨apiMessages, hb, hc⟩
  · simp only [hb]
  · simp only [hb, hc]

theorem setMessagesArgs_successTrace (converted messages : List Message)
    (append : Message → AppendAction) (hasAnc : Bool) :
    setMessagesArgs (successTrace converted messages append hasAnc) = [converted] := by
  unfold successTrace setMessagesArgs
  cases hasAnc <;> cases h2 : converted[2]? <;>
    simp [List.filterMap_append]

theorem setAncestorArgs_successTrace (converted messages : List Message)
    (append : Message → AppendAction) (hasAnc : Bool) :
    setAncestorArgs (successTrace converted messages append hasAnc) =
      if hasAnc then [ancestorSnapshot messages] else [] := by
  unfold successTrace setAncestorArgs
  cases hasAnc <;> cases h2 : converted[2]? <;>
    simp [List.filterMap_append]

theorem scheduledAppends_successTrace (converted messages : List Message)
    (append : Message → AppendAction) (hasAnc : Bool) :
    scheduledAppends (successTrace converted messages append hasAnc) =
      match converted[2]? with
      | some c => [(100, append c)]
      | none => [] := by
  unfold successTrace scheduledAppends
  cases hasAnc <;> cases h2 : converted[2]? <;>
    simp [List.filterMap_append]

theorem runTrace_successTrace (converted messages : List Message)
    (append : Message → AppendAction) (hasAnc : Bool) (s : OrchState) :
    runTrace s (successTrace converted messages append hasAnc) =
      { s with isCompacting := false } := by
  unfold successTrace runTrace
  cases hasAnc <;> cases h2 : converted[2]? <;>
    simp [List.foldl_append, applyEvent]

theorem runTrace_failureTrace (e : JsError) (messages : List Message) (now : Nat)
    (s : OrchState) :
    runTrace s (failureTrace e messages now) =
      { isCompacting := false, compactionError := some (errToDisplay e) } := by
  unfold failureTrace runTrace
  simp [applyEvent]

theorem runTrace_start (s : OrchState) (messages : List Message) :
    runTrace s [Event.setIsCompacting true, Event.setCompactionError none,
      Event.callBackend messages "summarize"] =
      { isCompacting := true, compactionError := none } := by
  unfold runTrace
  simp [applyEvent]

theorem performCompaction_final_state_ok
    (backend : List Message → String → Except JsError (List ApiMessage))
    (convert : ApiMessage → Bool → Bool → Except JsError Message)
    (now : Nat) (messages : List Message) (append : Message → AppendAction)
    (isManual hasAnc : Bool)
    (apiMessages : List ApiMessage) (converted : List Message)
    (hb : backend messages "summarize" = .ok apiMessages)
    (hc : convertAll convert apiMessages = .ok converted) (s : OrchState) :
    runTrace s (performCompaction backend convert now messages append isManual hasAnc) =
      { isCompacting := false, compactionError := none } := by
  rw [performCompaction_ok_trace backend convert now messages append isManual hasAnc
    apiMessages converted hb hc]
  unfold runTrace
  rw [List.foldl_append]
  have h1 := runTrace_start s messages
  unfold runTrace at h1
  rw [h1]
  have h2 := runTrace_successTrace converted messages append hasAnc
    { isCompacting := true, compactionError := none }
  unfold runTrace at h2
  rw [h2]

theorem performCompaction_final_state_error
    (backend : List Message → String → Except JsError (List ApiMessage))
    (convert : ApiMessage → Bool → Bool → Except JsError Message)
    (now : Nat) (messages : List Message) (append : Message → AppendAction)
    (isManual hasAnc : Bool) (e : JsError)
    (hfail : FailsWith backend convert messages e) (s : OrchState) :
    runTrace s (performCompaction backend convert now messages append isManual hasAnc) =
      { isCompacting := false, compactionError := some (errToDisplay e) } := by
  rw [performCompaction_error_trace backend convert now messages append isManual hasAnc
    e hfail]
  unfold runTrace
  rw [List.foldl_append]
  have h1 := runTrace_start s messages
  unfold runTrace at h1
  rw [h1]
  have h2 := runTrace_failureTrace e messages now
    { isCompacting := true, compactionError := none }
  unfold runTrace at h2
  rw [h2]

theorem clearAlerts_not_mem_performCompaction
    (backend : List Message → String → Except JsError (List ApiMessage))
    (convert : ApiMessage → Bool → Bool → Except JsError Message)
    (now : Nat) (messages : List Message) (append : Message → AppendAction)
    (isManual hasAnc : Bool) :
    Event.clearAlerts ∉ performCompaction backend convert now messages append isManual hasAnc := by
  cases hb : backend messages "summarize" with
  | error e =>
    rw [performCompaction_error_trace backend convert now messages append isManual hasAnc
      e (Or.inl hb)]
    simp [failureTrace]
  | ok apiMessages =>
    cases hc : convertAll convert apiMessages with
    | error e =>
      rw [performCompaction_error_trace backend convert now messages append isManual hasAnc
        e (Or.inr ⟨apiMessages, hb, hc⟩)]
      simp [failureTrace]
    | ok converted =>
      rw [performCompaction_ok_trace backend convert now messages append isManual hasAnc
        apiMessages converted hb hc]
      unfold successTrace
      cases hasAnc <;> cases h2 : converted[2]? <;> simp

theorem setMessagesArgs_performCompaction_ok
    (backend : List Message → String → Except JsError (List ApiMessage))
    (convert : ApiMessage → Bool → Bool → Except JsError Message)
    (now : Nat) (messages : List Message) (append : Message → AppendAction)
    (isManual hasAnc : Bool)
    (apiMessages : List ApiMessage) (converted : List Message)
    (hb : backend messages "summarize" = .ok apiMessages)
    (hc : convertAll convert apiMessages = .ok converted) :
    setMessagesArgs (performCompaction backend convert now messages append isManual hasAnc)
      = [converted] := by
  rw [performCompaction_ok_trace backend convert now messages append isManual hasAnc
    apiMessages converted hb hc]
  unfold setMessagesArgs
  rw [List.filterMap_append]
  have h := setMessagesArgs_successTrace converted messages append hasAnc
  unfold setMessagesArgs at h
  rw [h]
  rfl

theorem setAncestorArgs_performCompaction_ok
    (backend : List Message → String → Except JsError (List ApiMessage))
    (convert : ApiMessage → Bool → Bool → Except JsError Message)
    (now : Nat) (messages : List Message) (append : Message → AppendAction)
    (isManual hasAnc : Bool)
    (apiMessages : List ApiMessage) (converted : List Message)
    (hb : backend messages "summarize" = .ok apiMessages)
    (hc : convertAll convert apiMessages = .ok converted) :
    setAncestorArgs (performCompaction backend convert now messages append isManual hasAnc)
      = if hasAnc then [ancestorSnapshot messages] else [] := by
  rw [performCompaction_ok_trace backend convert now messages append isManual hasAnc
    apiMessages converted hb hc]
  unfold setAncestorArgs
  rw [List.filterMap_append]
  have h := setAncestorArgs_successTrace converted messages append hasAnc
  unfold setAncestorArgs at h
  rw [h]
  rfl

theorem scheduledAppends_performCompaction_ok
    (backend : List Message → String → Except JsError (List ApiMessage))
    (convert : ApiMessage → Bool → Bool → Except JsError Message)
    (now : Nat) (messages : List Message) (append : Message → AppendAction)
    (isManual hasAnc : Bool)
    (apiMessages : List ApiMessage) (converted : List Message)
    (hb : backend messages "summarize" = .ok apiMessages)
    (hc : convertAll convert apiMessages = .ok converted) :
    scheduledAppends (performCompaction backend convert now messages append isManual hasAnc)
      = match converted[2]? with
        | some c => [(100, append c)]
        | none => [] := by
  rw [performCompaction_ok_trace backend convert now messages append isManual hasAnc
    apiMessages converted hb hc]
  unfold scheduledAppends
  rw [List.filterMap_append]
  have h := scheduledAppends_successTrace converted messages append hasAnc
  unfold scheduledAppends at h
  rw [h]
  rfl

theorem setMessagesArgs_performCompaction_error
    (backend : List Message → String → Except JsError (List ApiMessage))
    (convert : ApiMessage → Bool → Bool → Except JsError Message)
    (now : Nat) (messages : List Message) (append : Message → AppendAction)
    (isManual hasAnc : Bool) (e : JsError)
    (hfail : FailsWith backend convert messages e) :
    setMessagesArgs (performCompaction backend convert now messages append isManual hasAnc)
      = [messages ++ [errorMarker now]] := by
  rw [performCompaction_error_trace backend convert now messages append isManual hasAnc
    e hfail]
  rfl

theorem scheduledAppends_performCompaction_error
    (backend : List Message → String → Except JsError (List ApiMessage))
    (convert : ApiMessage → Bool → Bool → Except JsError Message)
    (now : Nat) (messages : List Message) (append : Message → AppendAction)
    (isManual hasAnc : Bool) (e : JsError)
    (hfail : FailsWith backend convert messages e) :
    scheduledAppends (performCompaction backend convert now messages append isManual hasAnc)
      = [] := by
  rw [performCompaction_error_trace backend convert now messages append isManual hasAnc
    e hfail]
  rfl

/-! ### Concrete sample collaborators and data for the witness theorems -/

/-- A sample content block. -/
def sampleBlock : ContentBlock := { type := "text", msg := "hello" }

/-- A sample raw API message. -/
def sampleApi (n : Nat) : ApiMessage :=
  { id := "api", role := "assistant", created := n, content := [sampleBlock] }

/-- A sample pre-compaction frontend message. -/
def sampleMsg : Message :=
  { id := "u1", role := "user", created := 7, content := [sampleBlock],
    display := false, sendToLLM := true }

/-- A sample conversion collaborator that copies the raw fields and applies
the two explicit flags, as the interface contract prescribes. -/
def sampleConvert : ApiMessage → Bool → Bool → Except JsError Message :=
  fun a d s => Except.ok
    { id := a.id, role := a.role, created := a.created, content := a.content,
      display := d, sendToLLM := s }

theorem sampleConvert_flagCorrect : FlagCorrect sampleConvert := by
  intro a d s m h
  cases h
  exact ⟨rfl, rfl⟩

/-- The converted shape `sampleConvert` produces from `sampleApi n`. -/
def sampleConverted (n : Nat) (d s : Bool) : Message :=
  { id := "api", role := "assistant", created := n, content := [sampleBlock],
    display := d, sendToLLM := s }

/-- A sample backend returning the contractual three messages. -/
def sampleBackend3 : List Message → String → Except JsError (List ApiMessage) :=
  fun _ _ => Except.ok [sampleApi 0, sampleApi 1, sampleApi 2]

/-- A sample backend returning four messages (more than the contract's three). -/
def sampleBackend4 : List Message → String → Except JsError (List ApiMessage) :=
  fun _ _ => Except.ok [sampleApi 0, sampleApi 1, sampleApi 2, sampleApi 3]

/-- A sample backend that rejects with an `Error` whose message is `"boom"`. -/
def sampleBackendBoom : List Message → String → Except JsError (List ApiMessage) :=
  fun _ _ => Except.error (JsError.jsError "boom")

/-- A sample backend that rejects with an `Error` whose message is empty —
`new Error()` in JavaScript. -/
def sampleBackendEmptyErr : List Message → String → Except JsError (List ApiMessage) :=
  fun _ _ => Except.error (JsError.jsError "")

/-- The three-message conversion `sampleConvert` produces from
`sampleBackend3`'s response. -/
def sampleConverted3 : List Message :=
  [sampleConverted 0 true false, sampleConverted 1 false true,
   sampleConverted 2 false true]

/-- The four-message conversion `sampleConvert` produces from
`sampleBackend4`'s response. -/
def sampleConverted4 : List Message :=
  [sampleConverted 0 true false, sampleConverted 1 false true,
   sampleConverted 2 false true, sampleConverted 3 false true]

/-! ### Claim theorems -/

/-- C1: on every successful compaction, `setMessages` is called exactly once
and replaces the caller's list wholesale with exactly the converted messages;
given the conversion collaborator's flag contract, the converted message at
index 0 carries `(display, sendToLLM) = (true, false)` and the messages at
indices 1 and 2 carry `(false, true)`. -/
theorem success_flag_invariants
    (backend : List Message → String → Except JsError (List ApiMessage))
    (convert : ApiMessage → Bool → Bool → Except JsError Message)
    (now : Nat) (messages : List Message) (append : Message → AppendAction)
    (isManual hasAnc : Bool)
    (apiMessages : List ApiMessage) (converted : List Message)
    (hb : backend messages "summarize" = .ok apiMessages)
    (hc : convertAll convert apiMessages = .ok converted)
    (hf : FlagCorrect convert) :
    setMessagesArgs (performCompaction backend convert now messages append isManual hasAnc)
      = [converted]
    ∧ (∀ m, converted[0]? = some m → m.display = true ∧ m.sendToLLM = false)
    ∧ (∀ m, converted[1]? = some m → m.display = false ∧ m.sendToLLM = true)
    ∧ (∀ m, converted[2]? = some m → m.display = false ∧ m.sendToLLM = true) := by
  have hc' : convertFromIndex convert 0 apiMessages = .ok converted := hc
  refine ⟨setMessagesArgs_performCompaction_ok backend convert now messages append
    isManual hasAnc apiMessages converted hb hc, ?_, ?_, ?_⟩
  · intro m hm
    have h := convertFromIndex_flags convert hf apiMessages 0 converted hc' 0 m hm
    simpa using h
  · intro m hm
    have h := convertFromIndex_flags convert hf apiMessages 0 converted hc' 1 m hm
    simpa using h
  · intro m hm
    have h := convertFromIndex_flags convert hf apiMessages 0 converted hc' 2 m hm
    simpa using h

theorem success_flag_invariants_witness :
    setMessagesArgs (performCompaction sampleBackend3 sampleConvert 5 [sampleMsg]
        AppendAction.submit false true)
      = [sampleConverted3]
    ∧ ((sampleConverted 0 true false).display = true
        ∧ (sampleConverted 0 true false).sendToLLM = false)
    ∧ ((sampleConverted 1 false true).display = false
        ∧ (sampleConverted 1 false true).sendToLLM = true)
    ∧ ((sampleConverted 2 false true).display = false
        ∧ (sampleConverted 2 false true).sendToLLM = true) := by
  have h := success_flag_invariants sampleBackend3 sampleConvert 5 [sampleMsg]
    AppendAction.submit false true [sampleApi 0, sampleApi 1, sampleApi 2]
    sampleConverted3 rfl rfl sampleConvert_flagCorrect
  exact ⟨h.1, h.2.1 (sampleConverted 0 true false) rfl,
    h.2.2.1 (sampleConverted 1 false true) rfl,
    h.2.2.2 (sampleConverted 2 false true) rfl⟩

/-- C3: on success with an ancestor setter supplied, `setAncestorMessages`
is called exactly once, with a snapshot of the same length as the
pre-compaction sequence in which every entry carries
`(display, sendToLLM) = (true, false)` regardless of the original flags. -/
theorem ancestor_snapshot_preserved
    (backend : List Message → String → Except JsError (List ApiMessage))
    (convert : ApiMessage → Bool → Bool → Except JsError Message)
    (now : Nat) (messages : List Message) (append : Message → AppendAction)
    (isManual : Bool)
    (apiMessages : List ApiMessage) (converted : List Message)
    (hb : backend messages "summarize" = .ok apiMessages)
    (hc : convertAll convert apiMessages = .ok converted) :
    setAncestorArgs (performCompaction backend convert now messages append isManual true)
      = [ancestorSnapshot messages]
    ∧ (ancestorSnapshot messages).length = messages.length
    ∧ ∀ m ∈ ancestorSnapshot messages, m.display = true ∧ m.sendToLLM = false := by
  refine ⟨?_, ?_, ?_⟩
  · have h := setAncestorArgs_performCompaction_ok backend convert now messages append
      isManual true apiMessages converted hb hc
    simpa using h
  · simp [ancestorSnapshot]
  · intro m hm
    simp only [ancestorSnapshot, List.mem_map] at hm
    obtain ⟨a, _, rfl⟩ := hm
    exact ⟨rfl, rfl⟩

theorem ancestor_snapshot_preserved_witness :
    setAncestorArgs (performCompaction sampleBackend3 sampleConvert 5 [sampleMsg]
        AppendAction.submit false true)
      = [ancestorSnapshot [sampleMsg]]
    ∧ (ancestorSnapshot [sampleMsg]).length = [sampleMsg].length
    ∧ ({ sampleMsg with display := true, sendToLLM := false } : Message).display = true
    ∧ ({ sampleMsg with display := true, sendToLLM := false } : Message).sendToLLM = false := by
  have h := ancestor_snapshot_preserved sampleBackend3 sampleConvert 5 [sampleMsg]
    AppendAction.submit false [sampleApi 0, sampleApi 1, sampleApi 2]
    sampleConverted3 rfl rfl
  have hm := h.2.2 { sampleMsg with display := true, sendToLLM := false } (by decide)
  exact ⟨h.1, h.2.1, hm.1, hm.2⟩

/-- C4: `hasCompactionMarker` returns true iff some content block of the
message has type `summarizationRequested` — so false on an empty content
sequence, and true for multi-block content whenever any block matches.
Side-effect freedom is inherent: the embedding is a plain function of the
message. -/
theorem hasCompactionMarker_iff_block (m : Message) :
    (hasCompactionMarker m = true ↔
      ∃ c ∈ m.content, c.type = "summarizationRequested")
    ∧ (m.content = [] → hasCompactionMarker m = false) := by
  constructor
  · simp [hasCompactionMarker]
  · intro h
    simp [hasCompactionMarker, h]

theorem hasCompactionMarker_iff_block_witness :
    hasCompactionMarker
      { id := "m1", role := "assistant", created := 0, content := [],
        display := true, sendToLLM := false } = false :=
  (hasCompactionMarker_iff_block
    { id := "m1", role := "assistant", created := 0, content := [],
      display := true, sendToLLM := false }).2 rfl

/-- Final `isCompacting` after `performCompaction` is `false` from any
starting state, on every path. -/
theorem performCompaction_final_isCompacting
    (backend : List Message → String → Except JsError (List ApiMessage))
    (convert : ApiMessage → Bool → Bool → Except JsError Message)
    (now : Nat) (messages : List Message) (append : Message → AppendAction)
    (isManual hasAnc : Bool) (s : OrchState) :
    (runTrace s (performCompaction backend convert now messages append isManual hasAnc)).isCompacting
      = false := by
  cases hb : backend messages "summarize" with
  | error e =>
    rw [performCompaction_final_state_error backend convert now messages append
      isManual hasAnc e (Or.inl hb) s]
  | ok apiMessages =>
    cases hc : convertAll convert apiMessages with
    | error e =>
      rw [performCompaction_final_state_error backend convert now messages append
        isManual hasAnc e (Or.inr ⟨apiMessages, hb, hc⟩) s]
    | ok converted =>
      rw [performCompaction_final_state_ok backend convert now messages append
        isManual hasAnc apiMessages converted hb hc s]

/-- C2 counterexample: when the backend rejects with `new Error("")` — an
`Error` whose `message` is the empty string — the code stores that empty
string, so "compactionError is a non-empty string" fails at this input. -/
theorem failure_error_string_can_be_empty :
    (runTrace { isCompacting := false, compactionError := none }
        (performCompaction sampleBackendEmptyErr sampleConvert 0 [sampleMsg]
          AppendAction.submit false false)).compactionError = some ""
    ∧ ¬ ∃ s, (runTrace { isCompacting := false, compactionError := none }
        (performCompaction sampleBackendEmptyErr sampleConvert 0 [sampleMsg]
          AppendAction.submit false false)).compactionError = some s ∧ s ≠ "" := by
  have h := performCompaction_final_state_error sampleBackendEmptyErr sampleConvert 0
    [sampleMsg] AppendAction.submit false false (JsError.jsError "") (Or.inl rfl)
    { isCompacting := false, compactionError := none }
  constructor
  · rw [h]
    rfl
  · rintro ⟨s, hs, hne⟩
    rw [h] at hs
    simp only [errToDisplay, Option.some.injEq] at hs
    exact hne hs.symm

/-- C2 (amended): if the summarization collaborator rejects or a conversion
throws, `setMessages` receives exactly the original sequence with one error
marker appended — role `assistant`, a single content block of kind
`summarizationRequested`, `display = true`, `sendToLLM = false` — and
afterwards `isCompacting` is `false` while `compactionError` is set to the
failure's display string: the `Error`'s own message (possibly empty) when the
thrown value is an `Error`, else the fixed non-empty fallback text. -/
theorem failure_preserves_history
    (backend : List Message → String → Except JsError (List ApiMessage))
    (convert : ApiMessage → Bool → Bool → Except JsError Message)
    (now : Nat) (messages : List Message) (append : Message → AppendAction)
    (isManual hasAnc : Bool) (e : JsError)
    (hfail : FailsWith backend convert messages e) (s0 : OrchState) :
    setMessagesArgs (performCompaction backend convert now messages append isManual hasAnc)
      = [messages ++ [errorMarker now]]
    ∧ (errorMarker now).role = "assistant"
    ∧ (errorMarker now).content =
        [{ type := "summarizationRequested"
           msg := "Compaction failed. Please try again or start a new session." }]
    ∧ (errorMarker now).display = true
    ∧ (errorMarker now).sendToLLM = false
    ∧ (runTrace s0 (performCompaction backend convert now messages append isManual hasAnc)).isCompacting
        = false
    ∧ (runTrace s0 (performCompaction backend convert now messages append isManual hasAnc)).compactionError
        = some (errToDisplay e)
    ∧ (∀ msg, e = JsError.jsError msg → errToDisplay e = msg)
    ∧ (e = JsError.nonError → errToDisplay e = "Unknown error during compaction") := by
  have hfin := performCompaction_final_state_error backend convert now messages append
    isManual hasAnc e hfail s0
  refine ⟨setMessagesArgs_performCompaction_error backend convert now messages append
    isManual hasAnc e hfail, rfl, rfl, rfl, rfl, ?_, ?_, ?_, ?_⟩
  · rw [hfin]
  · rw [hfin]
  · intro msg hmsg
    rw [hmsg]
    rfl
  · intro hmsg
    rw [hmsg]
    rfl

theorem failure_preserves_history_witness :
    setMessagesArgs (performCompaction sampleBackendBoom sampleConvert 9 [sampleMsg]
        AppendAction.submit false false)
      = [[sampleMsg] ++ [errorMarker 9]]
    ∧ (errorMarker 9).role = "assistant"
    ∧ (errorMarker 9).content =
        [{ type := "summarizationRequested"
           msg := "Compaction failed. Please try again or start a new session." }]
    ∧ (errorMarker 9).display = true
    ∧ (errorMarker 9).sendToLLM = false
    ∧ (runTrace { isCompacting := false, compactionError := none }
        (performCompaction sampleBackendBoom sampleConvert 9 [sampleMsg]
          AppendAction.submit false false)).isCompacting = false
    ∧ (runTrace { isCompacting := false, compactionError := none }
        (performCompaction sampleBackendBoom sampleConvert 9 [sampleMsg]
          AppendAction.submit false false)).compactionError
        = some "boom" := by
  have h := failure_preserves_history sampleBackendBoom sampleConvert 9 [sampleMsg]
    AppendAction.submit false false (JsError.jsError "boom") (Or.inl rfl)
    { isCompacting := false, compactionError := none }
  exact ⟨h.1, h.2.1, h.2.2.1, h.2.2.2.1, h.2.2.2.2.1, h.2.2.2.2.2.1, h.2.2.2.2.2.2.1⟩

/-- C5: every invocation of either entry point sets `isCompacting := true`
and clears `compactionError` at the start of the attempt — from any prior
state, including one left with an error set — and `isCompacting` is `false`
again at exit on both the success and the failure path. -/
theorem entrypoints_reset_state
    (backend : List Message → String → Except JsError (List ApiMessage))
    (convert : ApiMessage → Bool → Bool → Except JsError Message)
    (now : Nat) (messages : List Message) (append : Message → AppendAction)
    (append? : Option (Message → AppendAction)) (hasClear hasAnc : Bool)
    (s0 : OrchState) :
    runTrace s0 ((handleAutoCompaction backend convert now messages append hasAnc).take 2)
      = { isCompacting := true, compactionError := none }
    ∧ (runTrace s0 (handleAutoCompaction backend convert now messages append hasAnc)).isCompacting
        = false
    ∧ runTrace s0
        ((handleManualCompaction backend convert now messages append? hasClear hasAnc).take
          (if hasClear then 3 else 2))
      = { isCompacting := true, compactionError := none }
    ∧ (runTrace s0
        (handleManualCompaction backend convert now messages append? hasClear hasAnc)).isCompacting
        = false := by
  refine ⟨rfl, ?_, ?_, ?_⟩
  · exact performCompaction_final_isCompacting backend convert now messages append
      false hasAnc s0
  · cases hasClear <;> rfl
  · cases hasClear with
    | false =>
      exact performCompaction_final_isCompacting backend convert now messages
        (append?.getD noopAppend) true hasAnc s0
    | true =>
      exact performCompaction_final_isCompacting backend convert now messages
        (append?.getD noopAppend) true hasAnc s0

/-- C6: on a successful compaction, exactly one `append` of the converted
message at index 2 is scheduled, at the fixed 100 ms delay, iff the
summarization response contains at least three messages; with fewer than
three nothing is scheduled and no error is raised (the final state is
`isCompacting = false`, `compactionError = none`). -/
theorem continuation_append_iff_three
    (backend : List Message → String → Except JsError (List ApiMessage))
    (convert : ApiMessage → Bool → Bool → Except JsError Message)
    (now : Nat) (messages : List Message) (append : Message → AppendAction)
    (isManual hasAnc : Bool)
    (apiMessages : List ApiMessage) (converted : List Message)
    (hb : backend messages "summarize" = .ok apiMessages)
    (hc : convertAll convert apiMessages = .ok converted) (s0 : OrchState) :
    (3 ≤ apiMessages.length →
      ∃ c, converted[2]? = some c ∧
        scheduledAppends (performCompaction backend convert now messages append isManual hasAnc)
          = [(100, append c)])
    ∧ (apiMessages.length < 3 →
        scheduledAppends (performCompaction backend convert now messages append isManual hasAnc)
          = [])
    ∧ runTrace s0 (performCompaction backend convert now messages append isManual hasAnc)
        = { isCompacting := false, compactionError := none } := by
  have hc' : convertFromIndex convert 0 apiMessages = .ok converted := hc
  have hlen : converted.length = apiMessages.length :=
    convertFromIndex_length convert apiMessages 0 converted hc'
  have hsched := scheduledAppends_performCompaction_ok backend convert now messages
    append isManual hasAnc apiMessages converted hb hc
  refine ⟨?_, ?_, performCompaction_final_state_ok backend convert now messages append
    isManual hasAnc apiMessages converted hb hc s0⟩
  · intro h3
    have h2 : 2 < converted.length := by omega
    refine ⟨converted[2], List.getElem?_eq_getElem h2, ?_⟩
    rw [hsched, List.getElem?_eq_getElem h2]
  · intro h3
    have h2 : converted[2]? = none := by
      apply List.getElem?_eq_none
      omega
    rw [hsched, h2]

theorem continuation_append_iff_three_witness :
    scheduledAppends (performCompaction sampleBackend3 sampleConvert 5 [sampleMsg]
        AppendAction.submit false true)
      = [(100, AppendAction.submit (sampleConverted 2 false true))]
    ∧ runTrace { isCompacting := true, compactionError := some "old" }
        (performCompaction sampleBackend3 sampleConvert 5 [sampleMsg]
          AppendAction.submit false true)
      = { isCompacting := false, compactionError := none } := by
  have h := continuation_append_iff_three sampleBackend3 sampleConvert 5 [sampleMsg]
    AppendAction.submit false true [sampleApi 0, sampleApi 1, sampleApi 2] sampleConverted3
    rfl rfl { isCompacting := true, compactionError := some "old" }
  obtain ⟨c, hcg, hsched⟩ := h.1 (by decide)
  have hc2 : some (sampleConverted 2 false true) = some c := hcg
  cases hc2
  exact ⟨hsched, h.2.2⟩

/-- C7: `handleManualCompaction` with `clearAlerts` supplied emits the
`clearAlerts` call as the very first event — before the state updates and
before the backend summarization call (hence before that call resolves) —
and nowhere else in the run. -/
theorem manual_clearAlerts_before_backend
    (backend : List Message → String → Except JsError (List ApiMessage))
    (convert : ApiMessage → Bool → Bool → Except JsError Message)
    (now : Nat) (messages : List Message)
    (append? : Option (Message → AppendAction)) (hasAnc : Bool) :
    handleManualCompaction backend convert now messages append? true hasAnc
      = Event.clearAlerts ::
          performCompaction backend convert now messages (append?.getD noopAppend) true hasAnc
    ∧ Event.clearAlerts ∉
        performCompaction backend convert now messages (append?.getD noopAppend) true hasAnc
    ∧ (performCompaction backend convert now messages (append?.getD noopAppend) true hasAnc).take 3
      = [Event.setIsCompacting true, Event.setCompactionError none,
         Event.callBackend messages "summarize"] := by
  exact ⟨rfl,
    clearAlerts_not_mem_performCompaction backend convert now messages
      (append?.getD noopAppend) true hasAnc,
    rfl⟩

/-- The `schedule` events of a manual run are exactly those of the underlying
`performCompaction` (the optional leading `clearAlerts` schedules nothing). -/
theorem scheduledAppends_handleManualCompaction
    (backend : List Message → String → Except JsError (List ApiMessage))
    (convert : ApiMessage → Bool → Bool → Except JsError Message)
    (now : Nat) (messages : List Message)
    (append? : Option (Message → AppendAction)) (hasClear hasAnc : Bool) :
    scheduledAppends (handleManualCompaction backend convert now messages append? hasClear hasAnc)
      = scheduledAppends
          (performCompaction backend convert now messages (append?.getD noopAppend) true hasAnc) := by
  cases hasClear <;> rfl

/-- C8: `handleManualCompaction` without an `append` callback never schedules
a real submission — every scheduled action is the substituted no-op — and
when the converted response has a message at index 2, that continuation is
computed and handed to the no-op (then dropped).  The routine is a total
function of its inputs, reflecting that it completes without throwing. -/
theorem manual_without_append_never_submits
    (backend : List Message → String → Except JsError (List ApiMessage))
    (convert : ApiMessage → Bool → Bool → Except JsError Message)
    (now : Nat) (messages : List Message) (hasClear hasAnc : Bool) :
    (∀ d m, (d, AppendAction.submit m) ∉
        scheduledAppends (handleManualCompaction backend convert now messages none hasClear hasAnc))
    ∧ (∀ apiMessages converted c,
        backend messages "summarize" = .ok apiMessages →
        convertAll convert apiMessages = .ok converted →
        converted[2]? = some c →
        scheduledAppends (handleManualCompaction backend convert now messages none hasClear hasAnc)
          = [(100, AppendAction.noop c)]) := by
  constructor
  · intro d m
    rw [scheduledAppends_handleManualCompaction]
    cases hb : backend messages "summarize" with
    | error e =>
      rw [scheduledAppends_performCompaction_error backend convert now messages
        (Option.getD none noopAppend) true hasAnc e (Or.inl hb)]
      simp
    | ok apiMessages =>
      cases hc : convertAll convert apiMessages with
      | error e =>
        rw [scheduledAppends_performCompaction_error backend convert now messages
          (Option.getD none noopAppend) true hasAnc e (Or.inr ⟨apiMessages, hb, hc⟩)]
        simp
      | ok converted =>
        rw [scheduledAppends_performCompaction_ok backend convert now messages
          (Option.getD none noopAppend) true hasAnc apiMessages converted hb hc]
        cases h2 : converted[2]? with
        | none => simp
        | some c => simp [noopAppend, Option.getD]
  · intro apiMessages converted c hb hc h2
    rw [scheduledAppends_handleManualCompaction]
    rw [scheduledAppends_performCompaction_ok backend convert now messages
      (Option.getD none noopAppend) true hasAnc apiMessages converted hb hc]
    rw [h2]
    rfl

theorem manual_without_append_never_submits_witness :
    scheduledAppends (handleManualCompaction sampleBackend3 sampleConvert 5 [sampleMsg]
        none true true)
      = [(100, AppendAction.noop (sampleConverted 2 false true))] :=
  (manual_without_append_never_submits sampleBackend3 sampleConvert 5 [sampleMsg]
    true true).2 [sampleApi 0, sampleApi 1, sampleApi 2] sampleConverted3
    (sampleConverted 2 false true) rfl rfl rfl

/-- C9: when the summarization response has more than three messages nothing
is truncated — the converted list handed to `setMessages` has the response's
full length, every converted message at index 2 or greater carries
`(display, sendToLLM) = (false, true)` — and still only the single message at
index 2 is scheduled for append. -/
theorem long_response_not_truncated
    (backend : List Message → String → Except JsError (List ApiMessage))
    (convert : ApiMessage → Bool → Bool → Except JsError Message)
    (now : Nat) (messages : List Message) (append : Message → AppendAction)
    (isManual hasAnc : Bool)
    (apiMessages : List ApiMessage) (converted : List Message)
    (hb : backend messages "summarize" = .ok apiMessages)
    (hc : convertAll convert apiMessages = .ok converted)
    (hf : FlagCorrect convert)
    (hlen3 : 3 < apiMessages.length) :
    converted.length = apiMessages.length
    ∧ setMessagesArgs (performCompaction backend convert now messages append isManual hasAnc)
        = [converted]
    ∧ (∀ j m, 2 ≤ j → converted[j]? = some m → m.display = false ∧ m.sendToLLM = true)
    ∧ ∃ c, converted[2]? = some c ∧
        scheduledAppends (performCompaction backend convert now messages append isManual hasAnc)
          = [(100, append c)] := by
  have hc' : convertFromIndex convert 0 apiMessages = .ok converted := hc
  have hlen : converted.length = apiMessages.length :=
    convertFromIndex_length convert apiMessages 0 converted hc'
  refine ⟨hlen, setMessagesArgs_performCompaction_ok backend convert now messages append
    isManual hasAnc apiMessages converted hb hc, ?_, ?_⟩
  · intro j m hj hm
    have h := convertFromIndex_flags convert hf apiMessages 0 converted hc' j m hm
    have hne : ¬ (0 + j = 0) := by omega
    rwa [if_neg hne] at h
  · have h2 : 2 < converted.length := by omega
    refine ⟨converted[2], List.getElem?_eq_getElem h2, ?_⟩
    rw [scheduledAppends_performCompaction_ok backend convert now messages append
      isManual hasAnc apiMessages converted hb hc, List.getElem?_eq_getElem h2]

theorem long_response_not_truncated_witness :
    sampleConverted4.length = 4
    ∧ setMessagesArgs (performCompaction sampleBackend4 sampleConvert 5 [sampleMsg]
        AppendAction.submit false true)
        = [sampleConverted4]
    ∧ ((sampleConverted 3 false true).display = false
        ∧ (sampleConverted 3 false true).sendToLLM = true)
    ∧ scheduledAppends (performCompaction sampleBackend4 sampleConvert 5 [sampleMsg]
          AppendAction.submit false true)
        = [(100, AppendAction.submit (sampleConverted 2 false true))] := by
  have h := long_response_not_truncated sampleBackend4 sampleConvert 5 [sampleMsg]
    AppendAction.submit false true [sampleApi 0, sampleApi 1, sampleApi 2, sampleApi 3]
    sampleConverted4 rfl rfl sampleConvert_flagCorrect (by decide)
  obtain ⟨c, hcg, hsched⟩ := h.2.2.2
  have hc2 : some (sampleConverted 2 false true) = some c := hcg
  cases hc2
  exact ⟨h.1, h.2.1, h.2.2.1 3 (sampleConverted 3 false true) (by decide) rfl, hsched⟩
